import Mathlib

/-!
Verification of the crawl-orchestration subsystem of the cafe-jogja scraper.

The definitions below are a shallow embedding of `cafe_scraper.py` and
`multi_instance_coordinator.py`:

* Python strings are Lean `String`s (the corpus is ASCII, so `lower`/`strip`
  are modelled on ASCII characters);
* Python floats are modelled as rationals `ℚ`; because the `Rat` arithmetic
  operations of Batteries are `@[irreducible]`, every operation used by an
  executable definition is written directly on the numerator/denominator
  with `Int`/`Nat` primitives, and rational constants are built with `mkRat`;
* `round(x, n)` and `f"{x:.nf}"` round half-to-even, exactly as documented
  for Python (binary-float representation error is outside this model);
* an `md5` digest is modelled by the digested string itself (md5 is treated
  as injective: collisions are outside this model);
* Python `set`s are modelled as `Finset`s.
-/

namespace CafeJogja

/-- ASCII whitespace test, modelling Python's `str.strip` / `\s` character
class on the ASCII fragment. -/
def pyIsSpace (c : Char) : Bool :=
  c = ' ' || c = '\t' || c = '\n' || c = '\x0d' || c = '\x0b' || c = '\x0c'

/-- Python `str.lower()` on the ASCII fragment. -/
def pyLower (s : String) : String :=
  ⟨s.data.map Char.toLower⟩

/-- Strip leading and trailing whitespace from a character list. -/
def stripChars (l : List Char) : List Char :=
  ((l.dropWhile pyIsSpace).reverse.dropWhile pyIsSpace).reverse

/-- Python `str.strip()` on the ASCII fragment. -/
def pyStrip (s : String) : String :=
  ⟨stripChars s.data⟩

/-- Python substring containment `needle in haystack`. -/
def pyIn (needle haystack : String) : Bool :=
  decide (needle.data <:+: haystack.data)

/-- Python `str.split()` with no separator: split on whitespace runs and
drop empty pieces. -/
def pyWords (s : String) : List (List Char) :=
  (s.data.splitOnP pyIsSpace).filter (fun w => !w.isEmpty)

/-- Round a rational to the nearest integer, ties to even — the rounding mode
of Python's `round` and of `%.nf` formatting.  Computed on the numerator and
denominator only, so the kernel can evaluate it. -/
def rhe (q : ℚ) : ℤ :=
  let b : ℤ := (q.den : ℤ)
  let t : ℤ := Int.fdiv q.num b
  let r : ℤ := q.num - t * b
  if 2 * r < b then t
  else if b < 2 * r then t + 1
  else if t % 2 = 0 then t else t + 1

/-- Multiply a rational by `10 ^ n`, implemented with `mkRat` so that the
kernel can evaluate it. -/
def scalePow10 (n : ℕ) (q : ℚ) : ℚ :=
  mkRat (q.num * ((10 ^ n : ℕ) : ℤ)) q.den

/-- Python `round(q, n)` for `n` decimal places (round half-to-even). -/
def pyRound (n : ℕ) (q : ℚ) : ℚ :=
  mkRat (rhe (scalePow10 n q)) (10 ^ n)

/-- Left-pad a string with `'0'` to width 6. -/
def lpad6 (s : String) : String :=
  ⟨List.replicate (6 - s.data.length) '0' ++ s.data⟩

/-- Python `f"{q:.6f}"`: fixed-point formatting with six decimal places.
The sign is taken from the value (Python prints `-0.000000` for tiny
negative values). -/
def fmt6 (q : ℚ) : String :=
  let s : ℤ := rhe (scalePow10 6 q)
  let sign : String := if q.num < 0 then "-" else ""
  let m : ℕ := s.natAbs
  sign ++ Nat.repr (m / 1000000) ++ "." ++ lpad6 (Nat.repr (m % 1000000))

/-- Structure `CafeData` (cafe_scraper.py lines 32–54): the structured record produced
by extraction.  Floats are rationals, `Dict[str, str]` is an association
list. -/
structure CafeData where
  name : String
  address : String := ""
  rating : ℚ := 0
  reviews_count : ℤ := 0
  price_range : String := ""
  lat : ℚ := 0
  lon : ℚ := 0
  district : String := ""
  village : String := ""
  regency : String := ""
  type : String := ""
  phone : String := ""
  website : String := ""
  opening_hours : String := ""
  opening_hours_weekly : List (String × String) := []
  maps_link : String := ""
  search_query : String := ""
  scraped_at : String := ""
  coordinate_source : String := ""
  precision_score : ℚ := 0
deriving DecidableEq

/-- Method `CafeData.get_hash` (lines 56–59): md5 of
`f"{name.lower().strip()}_{lat:.6f}_{lon:.6f}"`, modelled by the digested
string itself. -/
def CafeData.get_hash (c : CafeData) : String :=
  pyStrip (pyLower c.name) ++ "_" ++ fmt6 c.lat ++ "_" ++ fmt6 c.lon

/-- Generic-name tokens stripped from the front of a name
(`_normalize_name`, line 639). -/
def namePrefixTokens : List String :=
  ["kafe", "cafe", "kedai", "warung", "toko", "rumah"]

/-- Generic-name tokens stripped from the back of a name
(`_normalize_name`, line 640). -/
def nameSuffixTokens : List String :=
  ["coffee", "kopi", "shop", "store", "house", "jogja", "yogya"]

/-- Python `\w` on the ASCII fragment: letters, digits, underscore. -/
def pyIsWordChar (c : Char) : Bool :=
  c.isAlphanum || c = '_'

/-- Collapse every whitespace run to a single `' '`
(`re.sub(r'\s+', ' ', s)`). -/
def squeezeSpaces : List Char → List Char
  | [] => []
  | c :: rest =>
    if pyIsSpace c then
      match rest with
      | [] => [' ']
      | c' :: _ => if pyIsSpace c' then squeezeSpaces rest else ' ' :: squeezeSpaces rest
    else c :: squeezeSpaces rest

/-- Method `UltimateCafeScraper._normalize_name` (lines 630–654): lower-case and
strip, peel one leading generic token and one trailing generic token per
candidate in order, drop punctuation (`[^\w\s]`), collapse whitespace. -/
def normalize_name (name : String) : String :=
  if name = "" then ""
  else
    let n0 := pyStrip (pyLower name)
    let n1 := namePrefixTokens.foldl
      (fun acc p =>
        if List.isPrefixOf (p ++ " ").data acc.data then
          pyStrip ⟨acc.data.drop p.data.length⟩
        else acc) n0
    let n2 := nameSuffixTokens.foldl
      (fun acc suf =>
        if List.isSuffixOf (" " ++ suf).data acc.data then
          pyStrip ⟨acc.data.take (acc.data.length - suf.data.length)⟩
        else acc) n1
    let n3 : List Char := n2.data.filter (fun c => pyIsWordChar c || pyIsSpace c)
    pyStrip ⟨squeezeSpaces n3⟩

/-- The deduplication-relevant state of `UltimateCafeScraper`: the retained
records, the three fingerprint sets, and the two dedup counters of
`self.stats`. -/
structure ScraperState where
  all_cafes : List CafeData
  seen_hashes : Finset String
  seen_names : Finset String
  seen_coordinates : Finset (ℚ × ℚ)
  duplicates_removed : ℕ
  unique_cafes : ℕ
deriving DecidableEq

/-- The state of a scraper right after `__init__`: no records, empty sets,
zero counters. -/
def initialState : ScraperState :=
  ⟨[], ∅, ∅, ∅, 0, 0⟩

/-- The 4-decimal coordinate cell used as the third fingerprint signal
(`round(cafe.lat, 4), round(cafe.lon, 4)`). -/
def coordCell (c : CafeData) : ℚ × ℚ :=
  (pyRound 4 c.lat, pyRound 4 c.lon)

/-- Method `UltimateCafeScraper.is_duplicate` (lines 610–628): hash, then
normalized name, then — only when both coordinates are truthy (non-zero) —
the 4-decimal coordinate cell. -/
def is_duplicate (st : ScraperState) (cafe : CafeData) : Bool :=
  if cafe.get_hash ∈ st.seen_hashes then true
  else if normalize_name cafe.name ∈ st.seen_names then true
  else if cafe.lat ≠ 0 ∧ cafe.lon ≠ 0 then
    decide (coordCell cafe ∈ st.seen_coordinates)
  else false

/-- Method `UltimateCafeScraper.add_cafe_if_unique` (lines 656–675): under the data
lock, reject duplicates (counting them), otherwise register all three
signals — the coordinate cell only for truthy coordinates — and append the
record. -/
def add_cafe_if_unique (st : ScraperState) (cafe : CafeData) : Bool × ScraperState :=
  if is_duplicate st cafe then
    (false, { st with duplicates_removed := st.duplicates_removed + 1 })
  else
    (true,
      { st with
        seen_hashes := insert cafe.get_hash st.seen_hashes
        seen_names := insert (normalize_name cafe.name) st.seen_names
        seen_coordinates :=
          if cafe.lat ≠ 0 ∧ cafe.lon ≠ 0 then
            insert (coordCell cafe) st.seen_coordinates
          else st.seen_coordinates
        all_cafes := st.all_cafes ++ [cafe]
        unique_cafes := st.unique_cafes + 1 })

/-- Feed a list of candidate records through `add_cafe_if_unique` in order. -/
def addAll (st : ScraperState) (cs : List CafeData) : ScraperState :=
  cs.foldl (fun s c => (add_cafe_if_unique s c).2) st

/-- First candidate of the end-to-end scenario: `("Kopi Abc", -7.78, 110.37)`. -/
def rKopiAbc : CafeData :=
  { name := "Kopi Abc", lat := mkRat (-778) 100, lon := mkRat 11037 100 }

/-- Second candidate: the near-duplicate `("kopi abc", -7.780001, 110.370001)`. -/
def rKopiAbc' : CafeData :=
  { name := "kopi abc", lat := mkRat (-7780001) 1000000, lon := mkRat 110370001 1000000 }

/-- Third candidate: the distinct `("Kopi Xyz", -7.90, 110.20)`. -/
def rKopiXyz : CafeData :=
  { name := "Kopi Xyz", lat := mkRat (-790) 100, lon := mkRat 11020 100 }

/-- All six arrival orders of the three scenario candidates. -/
def scenarioOrders : List (List CafeData) :=
  [[rKopiAbc, rKopiAbc', rKopiXyz], [rKopiAbc, rKopiXyz, rKopiAbc'],
   [rKopiAbc', rKopiAbc, rKopiXyz], [rKopiAbc', rKopiXyz, rKopiAbc],
   [rKopiXyz, rKopiAbc, rKopiAbc'], [rKopiXyz, rKopiAbc', rKopiAbc]]

/-- A candidate record whose coordinates are absent (`lat = lon = 0.0`). -/
def cNoCoord : CafeData :=
  { name := "Warung Tanpa Titik" }

/-- C1: for the three candidate records `("Kopi Abc", -7.78, 110.37)`,
`("kopi abc", -7.780001, 110.370001)` and `("Kopi Xyz", -7.90, 110.20)`,
feeding all three through `add_cafe_if_unique` in any of the six arrival
orders retains exactly two records: `"Kopi Xyz"` is always retained, and
exactly one of the two near-duplicates is retained (whichever arrives
first — the other collides on the normalized-name and coordinate-cell
signals and is rejected). -/
theorem C1_scenario_two_retained :
    (scenarioOrders.all (fun p =>
      let kept := (addAll initialState p).all_cafes
      (kept.length == 2) && kept.contains rKopiXyz &&
        (kept.contains rKopiAbc ^^ kept.contains rKopiAbc') &&
        kept.contains (p.getD 0 rKopiXyz))) = true := by decide

/-- C2 counterexample: the claim quantifies over every index state, but on a
state that already contains the record, the first of two back-to-back
byte-identical `add_cafe_if_unique` calls returns `false`, not `true`. -/
theorem C2_cex_first_call_returns_false :
    (add_cafe_if_unique (add_cafe_if_unique initialState rKopiAbc).2 rKopiAbc).1 = false := by
  decide

/-- The Boolean returned by `add_cafe_if_unique` is the negated duplicate
test. -/
lemma add_fst_eq (st : ScraperState) (c : CafeData) :
    (add_cafe_if_unique st c).1 = !(is_duplicate st c) := by
  by_cases h : is_duplicate st c = true <;> simp [add_cafe_if_unique, h]

/-- A rejected record leaves the retained list unchanged; an added record is
appended to it. -/
lemma add_all_cafes_eq (st : ScraperState) (c : CafeData) :
    (add_cafe_if_unique st c).2.all_cafes
      = if is_duplicate st c then st.all_cafes else st.all_cafes ++ [c] := by
  by_cases h : is_duplicate st c = true <;> simp [add_cafe_if_unique, h]

/-- After any `add_cafe_if_unique` call, the very same record is a
duplicate: if it was just added its hash is now registered, and if it was
rejected the fingerprint sets are unchanged. -/
lemma is_duplicate_after_add (st : ScraperState) (c : CafeData) :
    is_duplicate (add_cafe_if_unique st c).2 c = true := by
  by_cases h : is_duplicate st c = true
  · have e : (add_cafe_if_unique st c).2
        = { st with duplicates_removed := st.duplicates_removed + 1 } := by
      simp [add_cafe_if_unique, h]
    rw [e]; exact h
  · have e : (add_cafe_if_unique st c).2
        = { st with
            all_cafes := st.all_cafes ++ [c]
            seen_hashes := insert c.get_hash st.seen_hashes
            seen_names := insert (normalize_name c.name) st.seen_names
            seen_coordinates :=
              if c.lat ≠ 0 ∧ c.lon ≠ 0 then
                insert (coordCell c) st.seen_coordinates
              else st.seen_coordinates
            unique_cafes := st.unique_cafes + 1 } := by
      simp [add_cafe_if_unique, h]
    rw [e]
    simp [is_duplicate]

/-- C2 amended: for every state and record, `add_cafe_if_unique` returns
`true` on the first call exactly when the record is not already a duplicate
of the state; the second byte-identical call always returns `false` and
appends nothing, and the pair of calls appends the record at most once. -/
theorem C2_addIfUnique_idempotent (st : ScraperState) (c : CafeData) :
    (add_cafe_if_unique st c).1 = !(is_duplicate st c) ∧
    (add_cafe_if_unique (add_cafe_if_unique st c).2 c).1 = false ∧
    (add_cafe_if_unique (add_cafe_if_unique st c).2 c).2.all_cafes
      = (add_cafe_if_unique st c).2.all_cafes ∧
    (add_cafe_if_unique st c).2.all_cafes.length ≤ st.all_cafes.length + 1 := by
  refine ⟨add_fst_eq st c, ?_, ?_, ?_⟩
  · rw [add_fst_eq, is_duplicate_after_add]; rfl
  · rw [add_all_cafes_eq, if_pos (is_duplicate_after_add st c)]
  · rw [add_all_cafes_eq]
    by_cases h : is_duplicate st c = true <;> simp [h]

/-- C10: when either coordinate is absent (`0.0`, falsy in Python),
`is_duplicate` decides using only the exact-hash and normalized-name
signals — never the coordinate-cell set — and `add_cafe_if_unique` leaves
`seen_coordinates` unchanged whether the record is rejected or added. -/
theorem C10_absent_coordinates_frame (st : ScraperState) (c : CafeData)
    (h : c.lat = 0 ∨ c.lon = 0) :
    is_duplicate st c
      = (decide (c.get_hash ∈ st.seen_hashes)
          || decide (normalize_name c.name ∈ st.seen_names)) ∧
    (add_cafe_if_unique st c).2.seen_coordinates = st.seen_coordinates := by
  have hcond : ¬(c.lat ≠ 0 ∧ c.lon ≠ 0) := by tauto
  constructor
  · by_cases h1 : c.get_hash ∈ st.seen_hashes <;>
      by_cases hn : normalize_name c.name ∈ st.seen_names <;>
      simp [is_duplicate, h1, hn, hcond]
  · by_cases hd : is_duplicate st c <;> simp [add_cafe_if_unique, hd, hcond]

/-- C10 witness: the general frame theorem applied to the concrete record
`cNoCoord` (absent coordinates) on the fresh scraper state. -/
theorem C10_witness :
    (cNoCoord.lat = 0 ∨ cNoCoord.lon = 0) ∧
    (is_duplicate initialState cNoCoord
      = (decide (cNoCoord.get_hash ∈ initialState.seen_hashes)
          || decide (normalize_name cNoCoord.name ∈ initialState.seen_names)) ∧
    (add_cafe_if_unique initialState cNoCoord).2.seen_coordinates
      = initialState.seen_coordinates) :=
  ⟨Or.inl rfl, C10_absent_coordinates_frame initialState cNoCoord (Or.inl rfl)⟩

/-- Python `random.uniform(a, b)`: with `u` the underlying uniform draw in
`[0, 1]`, the returned value is `a + (b - a) * u`. -/
def pyUniform (a b u : ℚ) : ℚ :=
  a + (b - a) * u

/-- The mutable state of `MultiSessionManager` (cafe_scraper.py lines
303–312). -/
structure MultiSessionManagerState where
  session_duration : ℚ
  max_queries_per_session : ℕ
  current_session_start : ℚ
  queries_in_session : ℕ
  session_count : ℕ
deriving DecidableEq

/-- A freshly constructed `MultiSessionManager`: zero sessions so far. -/
def freshManager (session_duration : ℚ) (max_queries_per_session : ℕ) :
    MultiSessionManagerState :=
  ⟨session_duration, max_queries_per_session, 0, 0, 0⟩

/-- Method `MultiSessionManager.should_rotate_session` (lines 314–321): rotate when
wall-clock session duration is exceeded or the query ceiling is reached. -/
def should_rotate_session (st : MultiSessionManagerState) (now : ℚ) : Bool :=
  decide (st.session_duration < now - st.current_session_start)
    || decide (st.max_queries_per_session ≤ st.queries_in_session)

/-- Method `MultiSessionManager.rotate_session` (lines 323–344).  `u ∈ [0, 1]` is
the uniform draw behind `random.uniform(120, 420)`.  Returns the updated
manager state and the inter-session delay actually slept, if any: the source
guards the delay with `if self.session_count > 1`. -/
def rotate_session (st : MultiSessionManagerState) (now u : ℚ) :
    MultiSessionManagerState × Option ℚ :=
  (⟨st.session_duration, st.max_queries_per_session, now, 0, st.session_count + 1⟩,
   if 1 < st.session_count then some (pyUniform 120 420 u) else none)

/-- C8 counterexample: start a fresh manager (as
`process_strategies_with_rotation` does), perform the first rotation, then
the second.  The second rotation has one prior session, yet no
inter-session delay is slept: the guard `session_count > 1` also skips the
delay before the second session, not only before the first. -/
theorem C8_cex_second_rotation_no_delay :
    (rotate_session (rotate_session (freshManager 3600 10) 0 (mkRat 1 2)).1
        5 (mkRat 1 2)).2 = none := by
  decide

/-- C8 amended: `rotate_session` increments the session counter, sleeps no
inter-session delay before the first two sessions (`session_count ≤ 1`),
and before every later session sleeps a delay drawn uniformly from the
2–7 minute range `[120, 420]` seconds. -/
theorem C8_rotation_delay (st : MultiSessionManagerState) (now u : ℚ)
    (h0 : 0 ≤ u) (h1 : u ≤ 1) :
    (rotate_session st now u).1.session_count = st.session_count + 1 ∧
    (st.session_count ≤ 1 → (rotate_session st now u).2 = none) ∧
    (1 < st.session_count →
      ∃ d, (rotate_session st now u).2 = some d ∧ 120 ≤ d ∧ d ≤ 420) := by
  refine ⟨rfl, ?_, ?_⟩
  · intro hle
    have : ¬ (1 < st.session_count) := by omega
    simp [rotate_session, this]
  · intro hgt
    refine ⟨pyUniform 120 420 u, ?_, ?_, ?_⟩
    · simp [rotate_session, hgt]
    · unfold pyUniform; nlinarith
    · unfold pyUniform; nlinarith

/-- C8 witness: the amended rotation theorem applied to a manager with two
prior sessions and the extreme draw `u = 1`. -/
theorem C8_rotation_delay_witness :
    (rotate_session ⟨3600, 10, 0, 4, 2⟩ 50 1).1.session_count = 2 + 1 ∧
    ((2 : ℕ) ≤ 1 → (rotate_session ⟨3600, 10, 0, 4, 2⟩ 50 1).2 = none) ∧
    ((1 : ℕ) < 2 →
      ∃ d, (rotate_session ⟨3600, 10, 0, 4, 2⟩ 50 1).2 = some d ∧ 120 ≤ d ∧ d ≤ 420) :=
  C8_rotation_delay ⟨3600, 10, 0, 4, 2⟩ 50 1 zero_le_one (le_refl 1)

/-- Lookup in an association list, modelling both a read of a file-system
state and `dict.get` on an environment. -/
def lookupStr : List (String × String) → String → Option String
  | [], _ => none
  | (k, v) :: rest, key => if k = key then some v else lookupStr rest key

/-- Update (or create) a key in an association list, modelling both a file
write and `env[key] = value`. -/
def setFile : List (String × String) → String → String → List (String × String)
  | [], p, v => [(p, v)]
  | (q, w) :: rest, p, v =>
    if q = p then (q, v) :: rest else (q, w) :: setFile rest p v

/-- The file-system operations `save_state` performs, abstracted: opening a
path in `'w'` mode truncates it, a completed `json.dump` appends the
serialized text to the opened (empty) file. -/
inductive FsOp where
  | openTrunc (path : String)
  | writeAll (path : String) (content : String)
deriving DecidableEq

/-- Effect of one file-system operation on the file-system state. -/
def applyOp (fs : List (String × String)) : FsOp → List (String × String)
  | .openTrunc p => setFile fs p ""
  | .writeAll p c => setFile fs p ((lookupStr fs p).getD "" ++ c)

/-- Apply a sequence of file-system operations in order. -/
def applyOps (fs : List (String × String)) (ops : List FsOp) :
    List (String × String) :=
  ops.foldl applyOp fs

/-- Path `self.state_file = os.path.join(self.output_dir, "scraper_state.json")`
(cafe_scraper.py line 447). -/
def state_file (output_dir : String) : String :=
  output_dir ++ "/scraper_state.json"

/-- Path `self.resume_data_file = os.path.join(self.output_dir, "resume_data.json")`
(line 448). -/
def resume_data_file (output_dir : String) : String :=
  output_dir ++ "/resume_data.json"

/-- Method `UltimateCafeScraper.save_state` (lines 490–525) as its file-system
trace: it opens `state_file` in `'w'` mode and dumps the state JSON into
it, then does the same for `resume_data_file`.  No temporary file and no
rename is involved. -/
def save_state_ops (output_dir stateContent resumeContent : String) : List FsOp :=
  [.openTrunc (state_file output_dir),
   .writeAll (state_file output_dir) stateContent,
   .openTrunc (resume_data_file output_dir),
   .writeAll (resume_data_file output_dir) resumeContent]

/-- Atomicity with respect to process termination, as claimed: whatever
prefix of the operation sequence has executed when the process dies, a
reader of `path` observes either the old content or the complete new
content — never a partially written file. -/
def atomicWrtCrash (ops : List FsOp) (path : String)
    (fs0 : List (String × String)) (newContent : String) : Prop :=
  ∀ k, k ≤ ops.length →
    lookupStr (applyOps fs0 (ops.take k)) path = lookupStr fs0 path ∨
    lookupStr (applyOps fs0 (ops.take k)) path = some newContent

/-- Reading back the key just written. -/
lemma lookupStr_setFile_self (fs : List (String × String)) (p v : String) :
    lookupStr (setFile fs p v) p = some v := by
  induction fs with
  | nil => simp [setFile, lookupStr]
  | cons kv rest ih =>
    by_cases h : kv.1 = p <;> simp [setFile, lookupStr, h, ih]

/-- Writing one key does not disturb reads of another. -/
lemma lookupStr_setFile_other (fs : List (String × String)) (p q v : String)
    (h : p ≠ q) :
    lookupStr (setFile fs q v) p = lookupStr fs p := by
  induction fs with
  | nil => simp [setFile, lookupStr, Ne.symm h]
  | cons kv rest ih =>
    by_cases hq : kv.1 = q
    · simp [setFile, lookupStr, hq, Ne.symm h]
    · simp [setFile, lookupStr, hq, ih]

/-- The two checkpoint files live at distinct paths. -/
lemma state_file_ne_resume_data_file (dir : String) :
    state_file dir ≠ resume_data_file dir := by
  intro h
  have hd : dir.data ++ "/scraper_state.json".data
      = dir.data ++ "/resume_data.json".data := congrArg String.data h
  exact absurd (List.append_cancel_left hd) (by decide)

/-- C3 counterexample: with an existing checkpoint `"STATE-OLD"` on disk, a
crash immediately after `save_state` opens the checkpoint file in `'w'`
mode (the first of its four file-system operations) leaves a reader
observing the truncated file `""` — neither the old nor the new content —
so the write is not atomic with respect to process termination. -/
theorem C3_cex_save_state_not_atomic :
    ¬ atomicWrtCrash (save_state_ops "data" "STATE-NEW" "RESUME-NEW")
        (state_file "data") [(state_file "data", "STATE-OLD")] "STATE-NEW" := by
  intro h
  rcases h 1 (by decide) with h1 | h1 <;> exact absurd h1 (by decide)

/-- C3 amended: `save_state` writes the checkpoint file in place
(truncate-then-write, no temporary file, no rename).  An uninterrupted save
does store the full new checkpoint, but the crash point right after the
truncating open exposes an empty partial checkpoint, so `save_state` is not
atomic with respect to process termination whenever the file had non-empty
old content and the new content is non-empty. -/
theorem C3_save_state_truncate_then_write (dir s r : String)
    (fs0 : List (String × String)) (hs : s ≠ "")
    (hold : lookupStr fs0 (state_file dir) ≠ some "") :
    lookupStr (applyOps fs0 (save_state_ops dir s r)) (state_file dir) = some s ∧
    lookupStr (applyOps fs0 ((save_state_ops dir s r).take 1)) (state_file dir)
      = some "" ∧
    ¬ atomicWrtCrash (save_state_ops dir s r) (state_file dir) fs0 s := by
  have hne : state_file dir ≠ resume_data_file dir :=
    state_file_ne_resume_data_file dir
  have h1 : lookupStr (applyOps fs0 ((save_state_ops dir s r).take 1))
      (state_file dir) = some "" := by
    simp [save_state_ops, applyOps, applyOp, lookupStr_setFile_self]
  refine ⟨?_, h1, ?_⟩
  · show lookupStr
      (setFile (setFile (applyOps fs0 ((save_state_ops dir s r).take 2))
          (resume_data_file dir) "")
        (resume_data_file dir) _)
      (state_file dir) = some s
    rw [lookupStr_setFile_other _ _ _ _ hne, lookupStr_setFile_other _ _ _ _ hne]
    show lookupStr
        (setFile (setFile fs0 (state_file dir) "") (state_file dir)
          ((lookupStr (setFile fs0 (state_file dir) "") (state_file dir)).getD "" ++ s))
        (state_file dir) = some s
    rw [lookupStr_setFile_self, lookupStr_setFile_self]
    rfl
  · intro hA
    rcases hA 1 (by simp [save_state_ops]) with hA1 | hA1
    · rw [h1] at hA1
      exact hold hA1.symm
    · rw [h1] at hA1
      exact hs (Option.some.inj hA1).symm

/-- C3 witness: the amended save theorem at a concrete directory, concrete
old and new contents. -/
theorem C3_save_state_truncate_then_write_witness :
    lookupStr
        (applyOps [(state_file "data", "STATE-OLD")]
          (save_state_ops "data" "STATE-NEW" "RESUME-NEW"))
        (state_file "data") = some "STATE-NEW" ∧
    lookupStr
        (applyOps [(state_file "data", "STATE-OLD")]
          ((save_state_ops "data" "STATE-NEW" "RESUME-NEW").take 1))
        (state_file "data") = some "" ∧
    ¬ atomicWrtCrash (save_state_ops "data" "STATE-NEW" "RESUME-NEW")
        (state_file "data") [(state_file "data", "STATE-OLD")] "STATE-NEW" :=
  C3_save_state_truncate_then_write "data" "STATE-NEW" "RESUME-NEW"
    [(state_file "data", "STATE-OLD")] (by decide) (by decide)

/-- Method `MultiInstanceCoordinator.launch_instance`
(multi_instance_coordinator.py lines 99–139): the child environment is a
copy of the coordinator's with `SCRAPER_OUTPUT_DIR` set to the per-instance
subdirectory `f"{self.output_dir}/instance_{instance_id}"`. -/
def launch_instance_env (baseEnv : List (String × String))
    (output_dir : String) (instance_id : ℕ) : List (String × String) :=
  setFile baseEnv "SCRAPER_OUTPUT_DIR"
    (output_dir ++ "/instance_" ++ Nat.repr instance_id)

/-- The output directory the spawned scraper process actually uses: `main`
of `cafe_scraper.py` (line 1958) constructs `UltimateCafeScraper()` with
the default parameter `output_dir="data"`; `cafe_scraper.py` contains no
`os.environ`/`os.getenv` read, so the child environment passed by the
coordinator is never consulted. -/
def scraper_output_dir (_env : List (String × String)) : String :=
  "data"

/-- C7: the coordinator does set `SCRAPER_OUTPUT_DIR` to the per-instance
subdirectory in the child environment, but the spawned scraper ignores it:
its output directory — and hence its checkpoint path — stays at the default
`"data"`, not under the override directory. -/
theorem C7_output_dir_override_ignored :
    lookupStr (launch_instance_env [] "data/multi_instance" 0)
        "SCRAPER_OUTPUT_DIR" = some "data/multi_instance/instance_0" ∧
    scraper_output_dir (launch_instance_env [] "data/multi_instance" 0) = "data" ∧
    state_file (scraper_output_dir (launch_instance_env [] "data/multi_instance" 0))
      = "data/scraper_state.json" ∧
    scraper_output_dir (launch_instance_env [] "data/multi_instance" 0)
      ≠ "data/multi_instance/instance_0" := by
  refine ⟨by decide, rfl, rfl, by decide⟩

/-- One step of `MultiInstanceCoordinator.merge_and_deduplicate_results`
(multi_instance_coordinator.py lines 208–223): the coordinator recomputes
md5 of `f"{name.lower().strip()}_{lat:.6f}_{lon:.6f}"` — the same digest as
`CafeData.get_hash` — keeps the record when the digest is new, and counts a
removed duplicate otherwise.  (The `source_instance` tag it attaches to a
kept record is bookkeeping the merge counts do not depend on, and is not
modelled.)  The accumulator is `(all_cafes, seen_hashes, duplicates_removed)`. -/
def mergeStep (acc : List CafeData × Finset String × ℕ) (c : CafeData) :
    List CafeData × Finset String × ℕ :=
  if c.get_hash ∈ acc.2.1 then (acc.1, acc.2.1, acc.2.2 + 1)
  else (acc.1 ++ [c], insert c.get_hash acc.2.1, acc.2.2)

/-- Method `MultiInstanceCoordinator.merge_and_deduplicate_results` (lines
197–230): fold every record of every instance, in instance order, through
`mergeStep`, starting from an empty result list, an empty hash set and a
zero duplicate count.  Returns the merged unique records and the number of
duplicates removed. -/
def merge_and_deduplicate_results (instance_results : List (List CafeData)) :
    List CafeData × ℕ :=
  ((instance_results.flatten.foldl mergeStep ([], ∅, 0)).1,
   (instance_results.flatten.foldl mergeStep ([], ∅, 0)).2.2)

/-- Splitting a list by a Boolean predicate partitions its length. -/
lemma length_filter_add_length_filter_not {α : Type} (p : α → Bool) (l : List α) :
    (l.filter p).length + (l.filter (fun a => !(p a))).length = l.length := by
  induction l with
  | nil => simp
  | cons a t ih =>
    by_cases h : p a = true <;> simp [List.filter_cons, h] <;> omega

/-- Closed form of the merge fold on a batch whose digests are pairwise
distinct: the kept records are those whose digest is not already seen, the
seen set grows by all digests of the batch, and the duplicate counter grows
by the number of records whose digest was already seen. -/
lemma mergeStep_foldl_spec (L : List CafeData) (acc : List CafeData)
    (S : Finset String) (d : ℕ)
    (hnd : (L.map CafeData.get_hash).Nodup) :
    L.foldl mergeStep (acc, S, d)
      = (acc ++ L.filter (fun c => decide (c.get_hash ∉ S)),
         S ∪ (L.map CafeData.get_hash).toFinset,
         d + (L.filter (fun c => decide (c.get_hash ∈ S))).length) := by
  induction L generalizing acc S d with
  | nil => simp
  | cons c rest ih =>
    simp only [List.map_cons, List.nodup_cons, List.mem_map] at hnd
    obtain ⟨hc, hrest⟩ := hnd
    by_cases h : c.get_hash ∈ S
    · rw [List.foldl_cons,
        show mergeStep (acc, S, d) c = (acc, S, d + 1) by simp [mergeStep, h],
        ih acc S (d + 1) hrest,
        List.filter_cons_of_neg (by simp [h]),
        List.filter_cons_of_pos (by simp [h]),
        List.map_cons, List.toFinset_cons, Finset.union_insert,
        Finset.insert_eq_self.mpr (Finset.mem_union_left _ h),
        List.length_cons]
      congr 1
      congr 1
      omega
    · rw [List.foldl_cons,
        show mergeStep (acc, S, d) c = (acc ++ [c], insert c.get_hash S, d) by
          simp [mergeStep, h],
        ih (acc ++ [c]) (insert c.get_hash S) d hrest]
      have hne : ∀ x ∈ rest, x.get_hash ≠ c.get_hash :=
        fun x hx e => hc ⟨x, hx, e⟩
      have hmemNot : ∀ x ∈ rest,
          decide (x.get_hash ∉ insert c.get_hash S) = decide (x.get_hash ∉ S) := by
        intro x hx
        simp [Finset.mem_insert, hne x hx]
      have hmemIn : ∀ x ∈ rest,
          decide (x.get_hash ∈ insert c.get_hash S) = decide (x.get_hash ∈ S) := by
        intro x hx
        simp [Finset.mem_insert, hne x hx]
      rw [List.filter_congr hmemNot, List.filter_congr hmemIn,
        List.filter_cons_of_pos (by simp [h]),
        List.filter_cons_of_neg (by simp [h]),
        List.map_cons, List.toFinset_cons, Finset.union_insert, Finset.insert_union]
      simp [List.append_assoc]

/-- C9: if instance A contributes 50 records with pairwise-distinct merge
digests, instance B contributes 60 records with pairwise-distinct merge
digests of which exactly 10 carry a digest already present in A (equal
lower-cased/stripped name and equal coordinates at 6-decimal formatting),
then the coordinator merge keeps exactly 100 unique records and counts
exactly 10 duplicates removed. -/
theorem C9_merge_scenario (A B : List CafeData)
    (hA : A.length = 50) (hB : B.length = 60)
    (hAn : (A.map CafeData.get_hash).Nodup)
    (hBn : (B.map CafeData.get_hash).Nodup)
    (hdup : (B.filter
      (fun c => decide (c.get_hash ∈ A.map CafeData.get_hash))).length = 10) :
    (merge_and_deduplicate_results [A, B]).1.length = 100 ∧
    (merge_and_deduplicate_results [A, B]).2 = 10 := by
  have hjoin : ([A, B] : List (List CafeData)).flatten = A ++ B := by simp
  have hfold := mergeStep_foldl_spec A [] ∅ 0 hAn
  have hstep :
      (A ++ B).foldl mergeStep ([], ∅, 0)
        = B.foldl mergeStep
            (A, (∅ : Finset String) ∪ (A.map CafeData.get_hash).toFinset, 0) := by
    rw [List.foldl_append, hfold]
    simp
  have hmemAB : ∀ x ∈ B,
      (x.get_hash ∈ (∅ : Finset String) ∪ (A.map CafeData.get_hash).toFinset)
        = (x.get_hash ∈ A.map CafeData.get_hash) := by
    intro x _
    simp
  have hfoldB := mergeStep_foldl_spec B A
    ((∅ : Finset String) ∪ (A.map CafeData.get_hash).toFinset) 0 hBn
  have hdupB :
      (B.filter (fun c =>
        decide (c.get_hash ∈ (∅ : Finset String) ∪ (A.map CafeData.get_hash).toFinset))).length
        = 10 := by
    rw [List.filter_congr (fun x hx => by
      rw [decide_eq_decide.mpr (by rw [hmemAB x hx])])]
    exact hdup
  have hkeep :
      (B.filter (fun c =>
        decide (c.get_hash ∉ (∅ : Finset String) ∪ (A.map CafeData.get_hash).toFinset))).length
        = 50 := by
    have hadd := length_filter_add_length_filter_not
      (fun c => decide (c.get_hash ∈ (∅ : Finset String)
        ∪ (A.map CafeData.get_hash).toFinset)) B
    rw [hdupB, hB] at hadd
    have heq : B.filter (fun c =>
        !(decide (c.get_hash ∈ (∅ : Finset String) ∪ (A.map CafeData.get_hash).toFinset)))
        = B.filter (fun c =>
          decide (c.get_hash ∉ (∅ : Finset String) ∪ (A.map CafeData.get_hash).toFinset)) := by
      exact List.filter_congr (fun x _ => by rw [decide_not])
    rw [heq] at hadd
    omega
  constructor
  · show ((([A, B] : List (List CafeData)).flatten.foldl mergeStep ([], ∅, 0)).1).length = 100
    rw [hjoin, hstep, hfoldB]
    simp only [List.length_append]
    rw [hA, hkeep]
  · show (([A, B] : List (List CafeData)).flatten.foldl mergeStep ([], ∅, 0)).2.2 = 10
    rw [hjoin, hstep, hfoldB]
    simpa using hdupB

/-- A minimal record carrying only a name (coordinates absent). -/
def mkCafe (nm : String) : CafeData :=
  { name := nm }

/-- Concrete output of instance A: 50 records with distinct names. -/
def instA : List CafeData :=
  (List.range 50).map (fun i => mkCafe ("alpha" ++ Nat.repr i))

/-- Concrete output of instance B: the first 10 records of A repeated
verbatim, plus 50 fresh records. -/
def instB : List CafeData :=
  (List.range 10).map (fun i => mkCafe ("alpha" ++ Nat.repr i))
    ++ (List.range 50).map (fun i => mkCafe ("beta" ++ Nat.repr i))

/-- C9 witness: the merge-scenario theorem applied to the concrete instance
outputs `instA` and `instB`. -/
theorem C9_merge_scenario_witness :
    (merge_and_deduplicate_results [instA, instB]).1.length = 100 ∧
    (merge_and_deduplicate_results [instA, instB]).2 = 10 :=
  C9_merge_scenario instA instB (by decide) (by decide) (by decide) (by decide)
    (by decide)

/-- A parsed JSON value.  Numbers are exact rationals: Python's `json.dump`
followed by `json.load` round-trips every finite int and float exactly, so
the text layer is modelled as the identity on this tree. -/
inductive Json where
  | null
  | bool (b : Bool)
  | num (q : ℚ)
  | str (s : String)
  | arr (elems : List Json)
  | obj (fields : List (String × Json))

/-- Key lookup on a parsed JSON object, as Python `dict.get` does after
`json.load`. -/
def jget : List (String × Json) → String → Option Json
  | [], _ => none
  | (k, v) :: rest, key => if k = key then some v else jget rest key

/-- The state persisted by `save_state` and restored by `load_state`
(cafe_scraper.py lines 490–569): strategy index, consecutive-empty count,
high-yield flag, query-performance map, stats, the three dedup sets, and
the retained records from the resume-data file. -/
structure Checkpoint where
  current_strategy_index : ℤ
  consecutive_empty_queries : ℤ
  high_yield_mode : Bool
  query_performance : List (String × ℚ)
  stats : List (String × ℚ)
  seen_hashes : Finset String
  seen_names : Finset String
  seen_coordinates : Finset (ℚ × ℚ)
  all_cafes : List CafeData

/-- Serialize a `str → number` dict. -/
def encodeNumMap (m : List (String × ℚ)) : Json :=
  .obj (m.map fun kv => (kv.1, .num kv.2))

/-- A coordinate tuple is serialized as a two-element JSON array. -/
def encodeCoord (p : ℚ × ℚ) : Json :=
  .arr [.num p.1, .num p.2]

/-- Serialization `asdict(cafe)` (used by `save_state` line 510): one JSON object per
record, fields in dataclass order. -/
def encodeCafe (c : CafeData) : Json :=
  .obj [("name", .str c.name), ("address", .str c.address),
        ("rating", .num c.rating), ("reviews_count", .num (c.reviews_count : ℚ)),
        ("price_range", .str c.price_range), ("lat", .num c.lat),
        ("lon", .num c.lon), ("district", .str c.district),
        ("village", .str c.village), ("regency", .str c.regency),
        ("type", .str c.type), ("phone", .str c.phone),
        ("website", .str c.website), ("opening_hours", .str c.opening_hours),
        ("opening_hours_weekly",
          .obj (c.opening_hours_weekly.map fun kv => (kv.1, .str kv.2))),
        ("maps_link", .str c.maps_link), ("search_query", .str c.search_query),
        ("scraped_at", .str c.scraped_at),
        ("coordinate_source", .str c.coordinate_source),
        ("precision_score", .num c.precision_score)]

/-- The `state_data` JSON written by `save_state` (lines 493–506).  The
three dedup sets are serialized through the given enumeration lists `hs`,
`ns`, `cs` (a Python `set` enumerates in unspecified order — `list(...)`). -/
def save_state_json (c : Checkpoint) (hs ns : List String) (cs : List (ℚ × ℚ))
    (timestamp : String) : Json :=
  .obj [("current_strategy_index", .num (c.current_strategy_index : ℚ)),
        ("consecutive_empty_queries", .num (c.consecutive_empty_queries : ℚ)),
        ("high_yield_mode", .bool c.high_yield_mode),
        ("query_performance", encodeNumMap c.query_performance),
        ("stats", encodeNumMap c.stats),
        ("seen_hashes", .arr (hs.map .str)),
        ("seen_names", .arr (ns.map .str)),
        ("seen_coordinates", .arr (cs.map encodeCoord)),
        ("timestamp", .str timestamp)]

/-- The `resume_data` JSON written by `save_state` (lines 509–519). -/
def save_resume_json (cafes : List CafeData) (saved_at : String) : Json :=
  .obj [("cafes", .arr (cafes.map encodeCafe)),
        ("metadata",
          .obj [("total_cafes", .num (cafes.length : ℚ)),
                ("saved_at", .str saved_at),
                ("scraper_version", .str "ultimate_v2.0_pause_resume")])]

/-- Decode a JSON value expected to be an int (`.get(key, 0)` slots). -/
def jgetIntD (fields : List (String × Json)) (key : String) (dflt : ℤ) :
    Option ℤ :=
  match jget fields key with
  | none => some dflt
  | some (.num q) => if q.den = 1 then some q.num else none
  | some _ => none

/-- Decode a JSON value expected to be a string, with a default when the
key is absent. -/
def jgetStrD (fields : List (String × Json)) (key : String) (dflt : String) :
    Option String :=
  match jget fields key with
  | none => some dflt
  | some (.str s) => some s
  | some _ => none

/-- Decode a JSON value expected to be a number, with a default when the
key is absent. -/
def jgetNumD (fields : List (String × Json)) (key : String) (dflt : ℚ) :
    Option ℚ :=
  match jget fields key with
  | none => some dflt
  | some (.num q) => some q
  | some _ => none

/-- Traverse a list under a partial decoder, failing if any element fails. -/
def traverseOpt {α β : Type} (f : α → Option β) : List α → Option (List β)
  | [] => some []
  | a :: rest =>
    match f a, traverseOpt f rest with
    | some b, some t => some (b :: t)
    | _, _ => none

/-- Decode the entries of a `str → number` JSON object. -/
def decodeNumEntry (kv : String × Json) : Option (String × ℚ) :=
  match kv.2 with
  | .num q => some (kv.1, q)
  | _ => none

/-- Decode the entries of a `str → str` JSON object. -/
def decodeStrEntry (kv : String × Json) : Option (String × String) :=
  match kv.2 with
  | .str s => some (kv.1, s)
  | _ => none

/-- Decode a JSON string element. -/
def decodeStrElem (j : Json) : Option String :=
  match j with
  | .str s => some s
  | _ => none

/-- Conversion `tuple(coord) if isinstance(coord, list) else coord` (line 546): a
serialized coordinate list is restored as a tuple. -/
def decodeCoordElem (j : Json) : Option (ℚ × ℚ) :=
  match j with
  | .arr [.num a, .num b] => some (a, b)
  | _ => none

/-- Total read of a string field with the dataclass default. -/
def jgetStr (fields : List (String × Json)) (key : String) : String :=
  match jget fields key with
  | some (.str s) => s
  | _ => ""

/-- Total read of a float field with the dataclass default `0.0`. -/
def jgetNum (fields : List (String × Json)) (key : String) : ℚ :=
  match jget fields key with
  | some (.num q) => q
  | _ => 0

/-- Total read of an int field with the dataclass default `0`. -/
def jgetInt (fields : List (String × Json)) (key : String) : ℤ :=
  match jget fields key with
  | some (.num q) => q.num
  | _ => 0

/-- Total read of a `str → str` dict field with the dataclass default. -/
def jgetStrPairs (fields : List (String × Json)) (key : String) :
    List (String × String) :=
  match jget fields key with
  | some (.obj fs) => (traverseOpt decodeStrEntry fs).getD []
  | _ => []

/-- Reconstruction `CafeData(**cafe_dict)` (line 557): rebuild a record from its dict;
`name` is mandatory, every other field falls back to its dataclass default
when absent.  (A value of the wrong JSON type is read as the default; the
Python original would store the ill-typed value verbatim, which this typed
model cannot represent, and no value written by `save_state` is
ill-typed.) -/
def decodeCafe (j : Json) : Option CafeData :=
  match j with
  | .obj fields =>
    match jget fields "name" with
    | some (.str nm) =>
      some { name := nm
             address := jgetStr fields "address"
             rating := jgetNum fields "rating"
             reviews_count := jgetInt fields "reviews_count"
             price_range := jgetStr fields "price_range"
             lat := jgetNum fields "lat"
             lon := jgetNum fields "lon"
             district := jgetStr fields "district"
             village := jgetStr fields "village"
             regency := jgetStr fields "regency"
             type := jgetStr fields "type"
             phone := jgetStr fields "phone"
             website := jgetStr fields "website"
             opening_hours := jgetStr fields "opening_hours"
             opening_hours_weekly := jgetStrPairs fields "opening_hours_weekly"
             maps_link := jgetStr fields "maps_link"
             search_query := jgetStr fields "search_query"
             scraped_at := jgetStr fields "scraped_at"
             coordinate_source := jgetStr fields "coordinate_source"
             precision_score := jgetNum fields "precision_score" }
    | _ => none
  | _ => none

/-- Method `UltimateCafeScraper.load_state` (lines 527–569): read both JSON files
back into the in-memory state.  `stats₀` is the in-memory stats dict used
as the default of `state_data.get('stats', self.stats)`.  Absent keys fall
back to the source's defaults; a shape mismatch is a failed load (the
`except` branch returning `False`). -/
def load_state (stats₀ : List (String × ℚ)) (stateJ resumeJ : Json) :
    Option Checkpoint :=
  match stateJ, resumeJ with
  | .obj sf, .obj rf => do
    let csi ← jgetIntD sf "current_strategy_index" 0
    let ceq ← jgetIntD sf "consecutive_empty_queries" 0
    let hym ← (match jget sf "high_yield_mode" with
      | none => some false
      | some (.bool b) => some b
      | some _ => none)
    let qp ← (match jget sf "query_performance" with
      | none => some []
      | some (.obj fs) => traverseOpt decodeNumEntry fs
      | some _ => none)
    let st ← (match jget sf "stats" with
      | none => some stats₀
      | some (.obj fs) => traverseOpt decodeNumEntry fs
      | some _ => none)
    let hs ← (match jget sf "seen_hashes" with
      | none => some []
      | some (.arr xs) => traverseOpt decodeStrElem xs
      | some _ => none)
    let ns ← (match jget sf "seen_names" with
      | none => some []
      | some (.arr xs) => traverseOpt decodeStrElem xs
      | some _ => none)
    let cs ← (match jget sf "seen_coordinates" with
      | none => some []
      | some (.arr xs) => traverseOpt decodeCoordElem xs
      | some _ => none)
    let cafes ← (match jget rf "cafes" with
      | none => some []
      | some (.arr xs) => traverseOpt decodeCafe xs
      | some _ => none)
    pure { current_strategy_index := csi, consecutive_empty_queries := ceq,
           high_yield_mode := hym, query_performance := qp, stats := st,
           seen_hashes := hs.toFinset, seen_names := ns.toFinset,
           seen_coordinates := cs.toFinset, all_cafes := cafes }
  | _, _ => none

/-- A traversal of encoded elements decodes to the original list. -/
lemma traverseOpt_map {α β : Type} (f : α → Option β) (g : β → α)
    (l : List β) (h : ∀ b ∈ l, f (g b) = some b) :
    traverseOpt f (l.map g) = some l := by
  induction l with
  | nil => rfl
  | cons b t ih =>
    simp only [List.map_cons, traverseOpt, h b (by simp),
      ih (fun x hx => h x (by simp [hx]))]

/-- Serialized string elements decode back. -/
lemma traverseOpt_decodeStrElem (l : List String) :
    traverseOpt decodeStrElem (l.map Json.str) = some l :=
  traverseOpt_map _ _ _ (fun _ _ => rfl)

/-- Serialized `str → number` entries decode back. -/
lemma traverseOpt_decodeNumEntry (l : List (String × ℚ)) :
    traverseOpt decodeNumEntry (l.map fun kv => (kv.1, Json.num kv.2)) = some l :=
  traverseOpt_map _ _ _ (fun _ _ => rfl)

/-- Serialized `str → str` entries decode back. -/
lemma traverseOpt_decodeStrEntry (l : List (String × String)) :
    traverseOpt decodeStrEntry (l.map fun kv => (kv.1, Json.str kv.2)) = some l :=
  traverseOpt_map _ _ _ (fun _ _ => rfl)

/-- Serialized coordinate tuples decode back to the same tuples. -/
lemma traverseOpt_decodeCoordElem (l : List (ℚ × ℚ)) :
    traverseOpt decodeCoordElem (l.map encodeCoord) = some l :=
  traverseOpt_map _ _ _ (fun _ _ => rfl)

/-- A record serialized by `asdict` is rebuilt field-for-field by
`CafeData(**cafe_dict)`. -/
lemma decodeCafe_encodeCafe (c : CafeData) :
    decodeCafe (encodeCafe c) = some c := by
  simp [decodeCafe, encodeCafe, jget, jgetStr, jgetNum, jgetInt, jgetStrPairs,
    traverseOpt_decodeStrEntry]

/-- Serialized records decode back. -/
lemma traverseOpt_decodeCafe (l : List CafeData) :
    traverseOpt decodeCafe (l.map encodeCafe) = some l :=
  traverseOpt_map _ _ _ (fun b _ => decodeCafe_encodeCafe b)

/-- C4: checkpoint round-trip.  For every checkpoint state, every
enumeration order of the three dedup sets, and every timestamp,
`load_state` after `save_state` restores the state field-for-field: the
strategy index, consecutive-empty count, high-yield flag,
query-performance map, stats, the three dedup sets (set membership
preserved regardless of the serialized order, with the coordinate tuples
serialized as JSON lists restored as tuples), and the retained records. -/
theorem C4_checkpoint_roundtrip (c : Checkpoint) (hs ns : List String)
    (cs : List (ℚ × ℚ)) (ts ts' : String) (stats₀ : List (String × ℚ))
    (hhs : hs.toFinset = c.seen_hashes) (hns : ns.toFinset = c.seen_names)
    (hcs : cs.toFinset = c.seen_coordinates) :
    load_state stats₀ (save_state_json c hs ns cs ts)
      (save_resume_json c.all_cafes ts') = some c := by
  simp [load_state, save_state_json, save_resume_json, encodeNumMap,
    jget, jgetIntD, traverseOpt_decodeStrElem, traverseOpt_decodeNumEntry,
    traverseOpt_decodeCoordElem, traverseOpt_decodeCafe,
    Rat.den_intCast, Rat.num_intCast, hhs, hns, hcs]

/-- A concrete checkpoint exercising every field. -/
def cpExample : Checkpoint :=
  { current_strategy_index := 7
    consecutive_empty_queries := 2
    high_yield_mode := true
    query_performance := [("cafe condongcatur", 12)]
    stats := [("total_processed", 40), ("unique_cafes", 2)]
    seen_hashes := {"kopi abc_-7.780000_110.370000", "kopi xyz_-7.900000_110.200000"}
    seen_names := {"kopi abc"}
    seen_coordinates := {(mkRat (-778) 100, mkRat 11037 100)}
    all_cafes := [rKopiAbc] }

/-- C4 witness: the round-trip theorem applied to `cpExample`, with the
hash set serialized in the order opposite to its display order. -/
theorem C4_checkpoint_roundtrip_witness :
    load_state []
      (save_state_json cpExample
        ["kopi xyz_-7.900000_110.200000", "kopi abc_-7.780000_110.370000"]
        ["kopi abc"] [(mkRat (-778) 100, mkRat 11037 100)]
        "2026-10-12T00:00:00")
      (save_resume_json cpExample.all_cafes "2026-10-12T00:00:00")
      = some cpExample :=
  C4_checkpoint_roundtrip cpExample
    ["kopi xyz_-7.900000_110.200000", "kopi abc_-7.780000_110.370000"]
    ["kopi abc"] [(mkRat (-778) 100, mkRat 11037 100)]
    "2026-10-12T00:00:00" "2026-10-12T00:00:00" []
    (by decide) (by decide) (by decide)

/-- Corpus `base_keywords` (cafe_scraper.py lines 681–685). -/
def base_keywords : List String :=
  ["cafe", "coffee shop", "kedai kopi", "kopi", "coffee",
   "roastery", "specialty coffee", "espresso bar", "coffee house",
   "warung kopi", "tempat ngopi", "kopi tradisional", "kopi kekinian"]

/-- Corpus `contexts` (lines 687–691). -/
def contexts : List String :=
  ["terbaik", "buat nugas", "buka 24 jam", "cozy", "di", "hits",
   "instagrammable", "kalcer", "late night", "live music", "murah",
   "paling rame", "populer", "recommended", "skena", "sunset spot",
   "terdekat", "view bagus", "viral"]

/-- Corpus `regions` (lines 694–696). -/
def regions : List String :=
  ["yogyakarta", "sleman", "bantul", "kulon progo", "gunungkidul",
   "kota jogja", "DIY"]

/-- Corpus `sub_areas` (lines 699–717). -/
def sub_areas : List String :=
  ["malioboro", "condongcatur", "depok", "caturtunggal", "seturan",
   "gejayan", "pogung", "kentungan", "babarsari", "kalasan", "ngaglik",
   "mlati", "gamping", "godean", "berbah", "prambanan", "cangkringan",
   "pakem", "turi", "tempel", "seyegan", "minggir", "moyudan", "jakal",
   "demangan", "klebengan",
   "sewon", "kasihan", "banguntapan", "pleret", "pajangan", "imogiri",
   "pundong", "kretek", "sanden", "bambanglipuro", "srandakan", "dlingo",
   "wates", "panjatan", "galur", "lendah", "sentolo", "pengasih",
   "kokap", "nanggulan", "girimulyo", "kalibawang", "temon",
   "wonosari", "playen", "paliyan", "panggang", "purwosari", "tepus",
   "rongkop", "girisubo", "semanu", "tanjungsari", "ponjong", "patuk",
   "karangmojo", "gedangsari", "ngawen"]

/-- Corpus `landmarks` (lines 720–728). -/
def landmarks : List String :=
  ["alun alun kidul", "alun alun utara", "ambarukmo plaza", "bukit bintang",
   "gembira loka zoo", "goa pindul", "hartono mall", "heha sky view",
   "jogja city mall", "kaliurang", "keraton yogyakarta", "mangunan",
   "merapi museum", "monjali", "parangtritis beach", "pinus pengger",
   "prambanan temple", "ratu boko", "sindu kusuma edupark", "taman sari",
   "tebing breksi", "tugu jogja", "waduk sermo", "xt square",
   "yogyakarta international airport"]

/-- Corpus `universities_jogja` (lines 731–733). -/
def universities_jogja : List String :=
  ["ugm", "uii", "upn", "uin", "uny", "usd", "amikom", "udb", "stikes",
   "instiper", "akprind", "isi", "ukdw", "uty", "umy", "uad"]

/-- Corpus `essential_menu` (line 735). -/
def essential_menu : List String :=
  ["magic", "latte", "dirty latte", "matcha", "butterscotch", "americano",
   "cappuccino", "flat white", "mocha", "caramel macchiato"]

/-- Corpus `kata_tempat` (line 737). -/
def kata_tempat : List String :=
  ["dekat", "di", "sekitar", "area"]

/-- Corpus `awalan` (line 766). -/
def awalan : List String :=
  ["jual", "rekomendasi", "beli", "cafe"]

/-- Indexing `some_list[random.randint(0, len(some_list) - 1)]`: the stream
`r : ℕ → ℕ` supplies the successive values drawn by the global RNG, one per
`randint` call, numbered in call order; taking the draw modulo the list
length models a draw that is uniform over the valid indices. -/
def randPick (r : ℕ → ℕ) (n : ℕ) (l : List String) : String :=
  l.getD (r n % l.length) ""

/-- First query loop (lines 742–746): keyword × context × region, no
randomness. -/
def baseQueries : List String :=
  base_keywords.flatMap fun kw =>
    contexts.flatMap fun ctx =>
      regions.map fun reg => pyStrip (kw ++ " " ++ ctx ++ " " ++ reg)

/-- Second query loop (lines 749–751): one query per sub-area with a random
keyword and a random place word; consumes draws `0, …, 2·|sub_areas| - 1`. -/
def subAreaQueries (r : ℕ → ℕ) : List String :=
  sub_areas.enum.map fun ia =>
    pyStrip (randPick r (2 * ia.1) base_keywords ++ " "
      ++ randPick r (2 * ia.1 + 1) kata_tempat ++ " " ++ ia.2)

/-- Index of the first draw consumed by the landmark loop. -/
def offLandmark : ℕ := 2 * sub_areas.length

/-- Third query loop (lines 754–757): keyword × landmark with a random
place word. -/
def landmarkQueries (r : ℕ → ℕ) : List String :=
  base_keywords.enum.flatMap fun ik =>
    landmarks.enum.map fun jl =>
      pyStrip (ik.2 ++ " "
        ++ randPick r (offLandmark + (ik.1 * landmarks.length + jl.1)) kata_tempat
        ++ " " ++ jl.2)

/-- Index of the first draw consumed by the university loop. -/
def offUni : ℕ := offLandmark + base_keywords.length * landmarks.length

/-- Fourth query loop (lines 760–764): keyword × context × university with
a random place word, suffixed `" jogja"`. -/
def uniQueries (r : ℕ → ℕ) : List String :=
  base_keywords.enum.flatMap fun ik =>
    contexts.enum.flatMap fun jc =>
      universities_jogja.enum.map fun ku =>
        pyStrip (ik.2 ++ " " ++ jc.2 ++ " "
          ++ randPick r (offUni
              + ((ik.1 * contexts.length + jc.1) * universities_jogja.length + ku.1))
              kata_tempat
          ++ " " ++ ku.2 ++ " jogja")

/-- Index of the first draw consumed by the menu loop. -/
def offMenu : ℕ :=
  offUni + base_keywords.length * contexts.length * universities_jogja.length

/-- Fifth query loop (lines 769–772): menu term × region with a random
opening word and a random place word. -/
def menuQueries (r : ℕ → ℕ) : List String :=
  essential_menu.enum.flatMap fun im =>
    regions.enum.map fun jr =>
      pyStrip (randPick r (offMenu + 2 * (im.1 * regions.length + jr.1)) awalan
        ++ " " ++ im.2 ++ " "
        ++ randPick r (offMenu + 2 * (im.1 * regions.length + jr.1) + 1) kata_tempat
        ++ " " ++ jr.2)

/-- Index one past the last draw any loop consumes. -/
def offEnd : ℕ := offMenu + 2 * (essential_menu.length * regions.length)

/-- Every query the five loops feed into the `all_queries` set, in loop
order (`set.add` keeps only distinct strings; the later sort makes the
retained occurrence irrelevant). -/
def allQueriesList (r : ℕ → ℕ) : List String :=
  baseQueries ++ subAreaQueries r ++ landmarkQueries r
    ++ uniQueries r ++ menuQueries r

/-- Lexicographic code-point comparison of strings, the order Python's
`sorted` uses on `str`. -/
def charListLe : List Char → List Char → Bool
  | [], _ => true
  | _ :: _, [] => false
  | a :: as, b :: bs =>
    if a.toNat < b.toNat then true
    else if b.toNat < a.toNat then false
    else charListLe as bs

/-- Expression `sorted(all_queries)` (line 776): the distinct query strings in
ascending lexicographic order. -/
def sortedQueries (r : ℕ → ℕ) : List String :=
  ((allQueriesList r).dedup).mergeSort (fun a b => charListLe a.data b.data)

/-- A search strategy entry `{'query': …, 'expected_results': …,
'priority': …}`. -/
structure SearchStrategy where
  query : String
  expected_results : ℕ
  priority : ℕ
deriving DecidableEq

/-- The classification body of the `for q in sorted(all_queries)` loop
(lines 776–821).  Note the first `if` (sub-area) stands alone, so a query
naming both a sub-area and, say, a region is appended twice; the second
`if`/`elif` chain always appends exactly one entry. -/
def classifyQuery (q : String) : List SearchStrategy :=
  let ql := pyLower q
  let words := pyWords q
  (if sub_areas.any (fun a => pyIn a ql) then [⟨q, 100, 0⟩] else [])
  ++
  (if regions.any (fun reg => pyIn reg ql) then [⟨q, 100, 0⟩]
   else if universities_jogja.any (fun u => pyIn u ql) then [⟨q, 100, 1⟩]
   else if essential_menu.any (fun m => pyIn m ql) then [⟨q, 100, 2⟩]
   else if !(pyIn "dekat" ql) && decide (words.length ≤ 10) then [⟨q, 100, 3⟩]
   else if pyIn "dekat" ql && decide (words.length ≤ 10) then [⟨q, 100, 4⟩]
   else [⟨q, 100, 5⟩])

/-- The sort key comparison behind
`strategies.sort(key=lambda x: (x['priority'], -x['expected_results']))`:
lexicographic on `(priority, -expected_results)`. -/
def stratLE (a b : SearchStrategy) : Bool :=
  decide (a.priority < b.priority)
    || (decide (a.priority = b.priority)
        && decide (b.expected_results ≤ a.expected_results))

/-- Method `UltimateCafeScraper._generate_search_strategies` (lines 677–825) as a
function of the RNG draw stream `r`: build the query set, classify every
distinct query in sorted order, then stable-sort by
`(priority, -expected_results)`. -/
def generate_search_strategies (r : ℕ → ℕ) : List SearchStrategy :=
  ((sortedQueries r).flatMap classifyQuery).mergeSort stratLE

/-- The all-zeros draw stream. -/
def rZero : ℕ → ℕ := fun _ => 0

/-- The all-ones draw stream. -/
def rOne : ℕ → ℕ := fun _ => 1

/-- A stream that agrees with `rZero` on every draw the generator consumes
and differs beyond them. -/
def rShifted : ℕ → ℕ := fun n => if n < offEnd then 0 else 7

/-- Pointwise-equal bodies give equal `flatMap`s. -/
lemma flatMap_congr_left {α β : Type} (l : List α) (f g : α → List β)
    (h : ∀ a ∈ l, f a = g a) : l.flatMap f = l.flatMap g := by
  induction l with
  | nil => rfl
  | cons a t ih =>
    simp only [List.flatMap_cons, h a (by simp),
      ih (fun x hx => h x (by simp [hx]))]

/-- An `enum` entry's index is within bounds. -/
lemma fst_lt_of_mem_enum {α : Type} {l : List α} {p : ℕ × α}
    (h : p ∈ l.enum) : p.1 < l.length := by
  rw [List.mem_enum_iff_getElem?] at h
  by_contra hlt
  rw [List.getElem?_eq_none (by omega)] at h
  exact Option.noConfusion h

/-- The sub-area loop reads only draws `0, …, 127`. -/
lemma subAreaQueries_congr (r s : ℕ → ℕ) (h : ∀ n < offEnd, r n = s n) :
    subAreaQueries r = subAreaQueries s := by
  unfold subAreaQueries
  apply List.map_congr_left
  intro ia hia
  have hi : ia.1 < 64 := fst_lt_of_mem_enum hia
  simp only [randPick]
  rw [h (2 * ia.1) (show 2 * ia.1 < 4545 by omega),
    h (2 * ia.1 + 1) (show 2 * ia.1 + 1 < 4545 by omega)]

/-- The landmark loop reads only draws `128, …, 452`. -/
lemma landmarkQueries_congr (r s : ℕ → ℕ) (h : ∀ n < offEnd, r n = s n) :
    landmarkQueries r = landmarkQueries s := by
  unfold landmarkQueries
  apply flatMap_congr_left
  intro ik hik
  apply List.map_congr_left
  intro jl hjl
  have hi : ik.1 < 13 := fst_lt_of_mem_enum hik
  have hj : jl.1 < 25 := fst_lt_of_mem_enum hjl
  simp only [randPick]
  rw [h (offLandmark + (ik.1 * landmarks.length + jl.1))
    (show 128 + (ik.1 * 25 + jl.1) < 4545 by omega)]

/-- The university loop reads only draws `453, …, 4404`. -/
lemma uniQueries_congr (r s : ℕ → ℕ) (h : ∀ n < offEnd, r n = s n) :
    uniQueries r = uniQueries s := by
  unfold uniQueries
  apply flatMap_congr_left
  intro ik hik
  apply flatMap_congr_left
  intro jc hjc
  apply List.map_congr_left
  intro ku hku
  have hi : ik.1 < 13 := fst_lt_of_mem_enum hik
  have hj : jc.1 < 19 := fst_lt_of_mem_enum hjc
  have hk : ku.1 < 16 := fst_lt_of_mem_enum hku
  simp only [randPick]
  rw [h (offUni + ((ik.1 * contexts.length + jc.1) * universities_jogja.length + ku.1))
    (show 453 + ((ik.1 * 19 + jc.1) * 16 + ku.1) < 4545 by omega)]

/-- The menu loop reads only draws `4405, …, 4544`. -/
lemma menuQueries_congr (r s : ℕ → ℕ) (h : ∀ n < offEnd, r n = s n) :
    menuQueries r = menuQueries s := by
  unfold menuQueries
  apply flatMap_congr_left
  intro im him
  apply List.map_congr_left
  intro jr hjr
  have hi : im.1 < 10 := fst_lt_of_mem_enum him
  have hj : jr.1 < 7 := fst_lt_of_mem_enum hjr
  simp only [randPick]
  rw [h (offMenu + 2 * (im.1 * regions.length + jr.1))
    (show 4405 + 2 * (im.1 * 7 + jr.1) < 4545 by omega),
    h (offMenu + 2 * (im.1 * regions.length + jr.1) + 1)
    (show 4405 + 2 * (im.1 * 7 + jr.1) + 1 < 4545 by omega)]

/-- Every strategy `classifyQuery` appends carries the classified query. -/
lemma classifyQuery_query_eq (x : String) (s : SearchStrategy)
    (h : s ∈ classifyQuery x) : s.query = x := by
  simp only [classifyQuery] at h
  rcases List.mem_append.mp h with h | h <;> split_ifs at h <;> simp_all

/-- The `if`/`elif` chain of the classification always appends at least one
strategy for every query. -/
lemma classifyQuery_ne_nil (x : String) : classifyQuery x ≠ [] := by
  simp only [classifyQuery]
  intro h
  rcases List.append_eq_nil.mp h with ⟨_, h2⟩
  split_ifs at h2

/-- A query string occurs among the generated strategies exactly when one
of the five build loops produced it. -/
lemma mem_query_generate (r : ℕ → ℕ) (q : String) :
    (∃ s ∈ generate_search_strategies r, s.query = q)
      ↔ q ∈ allQueriesList r := by
  unfold generate_search_strategies sortedQueries
  constructor
  · rintro ⟨s, hs, rfl⟩
    rw [List.mem_mergeSort, List.mem_flatMap] at hs
    obtain ⟨x, hx, hsx⟩ := hs
    rw [List.mem_mergeSort, List.mem_dedup] at hx
    rw [classifyQuery_query_eq x s hsx]
    exact hx
  · intro hq
    obtain ⟨s, hs⟩ := List.exists_mem_of_ne_nil _ (classifyQuery_ne_nil q)
    exact ⟨s, List.mem_mergeSort.mpr (List.mem_flatMap.mpr
      ⟨q, List.mem_mergeSort.mpr (List.mem_dedup.mpr hq), hs⟩),
      classifyQuery_query_eq q s hs⟩

/-- A list whose head is not a space is untouched by a space `dropWhile`. -/
lemma dropWhile_eq_self_of_head (X : List Char) (c : Char)
    (hh : X.head? = some c) (hc : pyIsSpace c = false) :
    X.dropWhile pyIsSpace = X := by
  cases X with
  | nil => simp at hh
  | cons a t =>
    obtain rfl : a = c := by simpa using hh
    simp [List.dropWhile_cons, hc]

/-- Dropping leading spaces never eats into a trailing block that starts
with a non-space character. -/
lemma suffix_dropWhile_append (l t : List Char) (c : Char)
    (hh : t.head? = some c) (hc : pyIsSpace c = false) :
    t <:+ (l ++ t).dropWhile pyIsSpace := by
  induction l with
  | nil => rw [List.nil_append, dropWhile_eq_self_of_head t c hh hc]
  | cons a l ih =>
    rw [List.cons_append, List.dropWhile_cons]
    by_cases ha : pyIsSpace a = true
    · simpa [ha] using ih
    · simp only [ha, if_false]
      exact (List.suffix_append l t).trans (List.suffix_cons a (l ++ t))

/-- The last element survives into every list that has the suffix. -/
lemma getLast?_of_suffix {t X : List Char} (h : t <:+ X) (c : Char)
    (hl : t.getLast? = some c) : X.getLast? = some c := by
  obtain ⟨u, rfl⟩ := h
  rw [List.getLast?_append_of_ne_nil u (by rintro rfl; simp at hl)]
  exact hl

/-- The first character exists and is not whitespace. -/
def headNotSpace (t : String) : Bool :=
  match t.data.head? with
  | some c => !pyIsSpace c
  | none => false

/-- The last character exists and is not whitespace. -/
def lastNotSpace (t : String) : Bool :=
  match t.data.getLast? with
  | some c => !pyIsSpace c
  | none => false

/-- Stripping a string that ends in a block with non-space first and last
characters keeps that block as a suffix. -/
lemma stripChars_suffix_of_ok (l : List Char) (t : String)
    (h1 : headNotSpace t = true) (h2 : lastNotSpace t = true) :
    t.data <:+ stripChars (l ++ t.data) := by
  unfold headNotSpace at h1
  unfold lastNotSpace at h2
  cases hh : t.data.head? with
  | none => rw [hh] at h1; exact absurd h1 (by simp)
  | some c₁ =>
    cases hg : t.data.getLast? with
    | none => rw [hg] at h2; exact absurd h2 (by simp)
    | some c₂ =>
      rw [hh] at h1
      rw [hg] at h2
      have hc₁ : pyIsSpace c₁ = false := by simpa using h1
      have hc₂ : pyIsSpace c₂ = false := by simpa using h2
      have hA : t.data <:+ (l ++ t.data).dropWhile pyIsSpace :=
        suffix_dropWhile_append l t.data c₁ hh hc₁
      have hAl : ((l ++ t.data).dropWhile pyIsSpace).getLast? = some c₂ :=
        getLast?_of_suffix hA c₂ hg
      have hrev : ((l ++ t.data).dropWhile pyIsSpace).reverse.head? = some c₂ := by
        rw [List.head?_reverse, hAl]
      show t.data <:+
        ((((l ++ t.data).dropWhile pyIsSpace).reverse.dropWhile pyIsSpace).reverse)
      rw [dropWhile_eq_self_of_head _ c₂ hrev hc₂, List.reverse_reverse]
      exact hA

/-- Every query of the keyword × context × region loop ends with a region
name. -/
lemma baseQueries_suffix :
    ∀ q ∈ baseQueries, ∃ t ∈ regions, t.data <:+ q.data := by
  intro q hq
  rw [baseQueries, List.mem_flatMap] at hq
  obtain ⟨kw, _, hq⟩ := hq
  rw [List.mem_flatMap] at hq
  obtain ⟨ctx, _, hq⟩ := hq
  rw [List.mem_map] at hq
  obtain ⟨reg, hreg, rfl⟩ := hq
  have hok : ∀ t ∈ regions, headNotSpace t ∧ lastNotSpace t := by decide
  exact ⟨reg, hreg,
    stripChars_suffix_of_ok (kw ++ " " ++ ctx ++ " ").data reg
      (hok reg hreg).1 (hok reg hreg).2⟩

/-- Every query of the landmark loop ends with a landmark name, whatever
the draws. -/
lemma landmarkQueries_suffix (r : ℕ → ℕ) :
    ∀ q ∈ landmarkQueries r, ∃ t ∈ landmarks, t.data <:+ q.data := by
  intro q hq
  rw [landmarkQueries, List.mem_flatMap] at hq
  obtain ⟨ik, _, hq⟩ := hq
  rw [List.mem_map] at hq
  obtain ⟨jl, hjl, rfl⟩ := hq
  have hok : ∀ t ∈ landmarks, headNotSpace t ∧ lastNotSpace t := by decide
  have hmem : jl.2 ∈ landmarks := by
    rw [List.mem_enum_iff_getElem?] at hjl
    exact List.getElem?_mem hjl
  exact ⟨jl.2, hmem,
    stripChars_suffix_of_ok
      (ik.2 ++ " "
        ++ randPick r (offLandmark + (ik.1 * landmarks.length + jl.1)) kata_tempat
        ++ " ").data
      jl.2 (hok jl.2 hmem).1 (hok jl.2 hmem).2⟩

/-- Every query of the university loop ends with `"jogja"`, whatever the
draws. -/
lemma uniQueries_suffix (r : ℕ → ℕ) :
    ∀ q ∈ uniQueries r, ("jogja" : String).data <:+ q.data := by
  intro q hq
  rw [uniQueries, List.mem_flatMap] at hq
  obtain ⟨ik, _, hq⟩ := hq
  rw [List.mem_flatMap] at hq
  obtain ⟨jc, _, hq⟩ := hq
  rw [List.mem_map] at hq
  obtain ⟨ku, _, rfl⟩ := hq
  have h := stripChars_suffix_of_ok
    ((ik.2 ++ " " ++ jc.2 ++ " "
      ++ randPick r (offUni
          + ((ik.1 * contexts.length + jc.1) * universities_jogja.length + ku.1))
          kata_tempat
      ++ " " ++ ku.2).data ++ [' '])
    "jogja" (by decide) (by decide)
  rw [List.append_assoc] at h
  exact h

/-- Every query of the menu loop ends with a region name, whatever the
draws. -/
lemma menuQueries_suffix (r : ℕ → ℕ) :
    ∀ q ∈ menuQueries r, ∃ t ∈ regions, t.data <:+ q.data := by
  intro q hq
  rw [menuQueries, List.mem_flatMap] at hq
  obtain ⟨im, _, hq⟩ := hq
  rw [List.mem_map] at hq
  obtain ⟨jr, hjr, rfl⟩ := hq
  have hok : ∀ t ∈ regions, headNotSpace t ∧ lastNotSpace t := by decide
  have hmem : jr.2 ∈ regions := by
    rw [List.mem_enum_iff_getElem?] at hjr
    exact List.getElem?_mem hjr
  exact ⟨jr.2, hmem,
    stripChars_suffix_of_ok
      (randPick r (offMenu + 2 * (im.1 * regions.length + jr.1)) awalan
        ++ " " ++ im.2 ++ " "
        ++ randPick r (offMenu + 2 * (im.1 * regions.length + jr.1) + 1) kata_tempat
        ++ " ").data
      jr.2 (hok jr.2 hmem).1 (hok jr.2 hmem).2⟩

set_option maxRecDepth 100000 in
/-- C5 counterexample: the generator is not a pure function of the corpus —
it also depends on the `random.randint` draws.  Under the all-zeros draw
stream the sub-area loop emits `"cafe dekat malioboro"`; under the all-ones
stream no loop ever emits that query (the base, landmark, university and
menu loops only emit queries ending in a region, a landmark or `"jogja"`,
and the sub-area loop emits `"coffee shop di malioboro"` instead), so the
two runs return different strategy lists. -/
theorem C5_cex_rng_changes_strategies :
    generate_search_strategies rZero ≠ generate_search_strategies rOne := by
  intro h
  have h1 : "cafe dekat malioboro" ∈ allQueriesList rZero := by
    have hsub : "cafe dekat malioboro" ∈ subAreaQueries rZero := by decide
    simp [allQueriesList, hsub]
  have h2 : "cafe dekat malioboro" ∉ allQueriesList rOne := by
    have hb : "cafe dekat malioboro" ∉ baseQueries := fun hx =>
      absurd (baseQueries_suffix _ hx)
        (by decide : ¬ ∃ t ∈ regions, t.data <:+ ("cafe dekat malioboro").data)
    have hs : "cafe dekat malioboro" ∉ subAreaQueries rOne := by decide
    have hl : "cafe dekat malioboro" ∉ landmarkQueries rOne := fun hx =>
      absurd (landmarkQueries_suffix rOne _ hx)
        (by decide : ¬ ∃ t ∈ landmarks, t.data <:+ ("cafe dekat malioboro").data)
    have hu : "cafe dekat malioboro" ∉ uniQueries rOne := fun hx =>
      absurd (uniQueries_suffix rOne _ hx)
        (by decide : ¬ ("jogja" : String).data <:+ ("cafe dekat malioboro").data)
    have hm : "cafe dekat malioboro" ∉ menuQueries rOne := fun hx =>
      absurd (menuQueries_suffix rOne _ hx)
        (by decide : ¬ ∃ t ∈ regions, t.data <:+ ("cafe dekat malioboro").data)
    simp [allQueriesList, hb, hs, hl, hu, hm]
  have h3 := (mem_query_generate rZero "cafe dekat malioboro").mpr h1
  rw [h] at h3
  exact h2 ((mem_query_generate rOne "cafe dekat malioboro").mp h3)

/-- C5 amended: the generator is deterministic *given the draws*: its
output depends on nothing but the fixed corpus and the finitely many RNG
draws it consumes (indices `0, …, offEnd - 1`).  Two runs whose draw
streams agree there produce exactly the same strategy list — same queries,
same order. -/
theorem C5_deterministic_given_draws (r s : ℕ → ℕ)
    (h : ∀ n < offEnd, r n = s n) :
    generate_search_strategies r = generate_search_strategies s := by
  have hq : allQueriesList r = allQueriesList s := by
    unfold allQueriesList
    rw [subAreaQueries_congr r s h, landmarkQueries_congr r s h,
      uniQueries_congr r s h, menuQueries_congr r s h]
  unfold generate_search_strategies sortedQueries
  rw [hq]

/-- C5 witness: the determinism theorem applied to the all-zeros stream and
a stream that differs from it only beyond the consumed draws. -/
theorem C5_deterministic_given_draws_witness :
    generate_search_strategies rZero = generate_search_strategies rShifted :=
  C5_deterministic_given_draws rZero rShifted
    (fun n hn => by simp [rZero, rShifted, hn])

/-- The strategy sort key comparison is transitive. -/
lemma stratLE_trans :
    ∀ a b c : SearchStrategy,
      stratLE a b = true → stratLE b c = true → stratLE a c = true := by
  intro a b c hab hbc
  simp only [stratLE, Bool.or_eq_true, Bool.and_eq_true, decide_eq_true_eq]
    at hab hbc ⊢
  omega

/-- The strategy sort key comparison is total. -/
lemma stratLE_total :
    ∀ a b : SearchStrategy, (stratLE a b || stratLE b a) = true := by
  intro a b
  simp only [stratLE, Bool.or_eq_true, Bool.and_eq_true, decide_eq_true_eq]
  omega

/-- C6: for every draw stream, the returned strategy list is ordered by
ascending priority, and within each equal-priority tier the expected result
counts are non-increasing: every adjacent pair `s_i, s_{i+1}` satisfies
`s_i.priority < s_{i+1}.priority`, or `s_i.priority = s_{i+1}.priority` and
`s_i.expected_results ≥ s_{i+1}.expected_results`. -/
theorem C6_strategy_ordering (r : ℕ → ℕ) :
    List.Chain' (fun a b : SearchStrategy =>
      a.priority < b.priority
        ∨ (a.priority = b.priority ∧ b.expected_results ≤ a.expected_results))
      (generate_search_strategies r) := by
  have hp := List.sorted_mergeSort stratLE_trans stratLE_total
    ((sortedQueries r).flatMap classifyQuery)
  have hp' := hp.imp (fun hab => by
    simpa [stratLE, Bool.or_eq_true, Bool.and_eq_true, decide_eq_true_eq]
      using hab)
  unfold generate_search_strategies
  exact hp'.chain'

end CafeJogja
